import Mathlib

/-!
Verification development for the `build_context` module of just-prompt
(`src/just_prompt/molecules/build_context.py`).

The Python module is shallowly embedded: every function of the module is
translated to a total Lean function.  Python strings are Lean `String`s,
but all primitive string operations are (re)implemented over `List Char`
(`String.toList`), which mirrors Python's view of a string as a sequence
of code points and keeps every definition kernel-computable.  File-system
state, the working directory, the external summarizer and the output sink
are gathered into an explicit `World` value, and the observable side
effects of a call (directory walks, stats, reads, summarizer calls,
chdir, the final write, logged warnings) are returned as an explicit
effect trace.
-/

/-! ## Python string primitives -/

/-- The backtick character (code point 96). -/
def backtickChar : Char := Char.ofNat 96

/-- Models Python `str.lower()` (ASCII case mapping, which covers every
string this module ever lowercases). -/
def pyLower (s : String) : String := String.mk (s.toList.map Char.toLower)

/-- Splitting a character list on a separator character; used to model
Python `str.split(sep)` for a one-character separator.  On the empty
string it yields `[""]`, exactly like Python. -/
def charSplitOn (sep : Char) : List Char → List String
  | [] => [""]
  | c :: rest =>
    let r := charSplitOn sep rest
    if c = sep then "" :: r
    else
      match r with
      | [] => [String.mk [c]]
      | h :: t => (String.mk (c :: h.toList)) :: t

/-- Models Python `s.split(sep)` for a one-character separator `sep`. -/
def pySplit (s : String) (sep : Char) : List String := charSplitOn sep s.toList

/-- Models Python `c in s` for a single character `c`. -/
def pyContainsChar (s : String) (c : Char) : Bool := s.toList.contains c

/-- Models Python `s.startswith(p)`. -/
def pyStartsWith (s p : String) : Bool := p.toList.isPrefixOf s.toList

/-- Models Python `s.endswith(p)`. -/
def pyEndsWith (s p : String) : Bool := p.toList.isSuffixOf s.toList

/-- Models Python `s[n:]`. -/
def pyDrop (s : String) (n : Nat) : String := String.mk (s.toList.drop n)

/-- Models Python `s[:n]`. -/
def pyTake (s : String) (n : Nat) : String := String.mk (s.toList.take n)

/-- ASCII whitespace, as stripped by Python `str.strip()` on the strings
this module handles. -/
def isPySpace (c : Char) : Bool := c = ' ' || c = '\t' || c = '\n' || c = '\r'

/-- Models Python `s.strip()`. -/
def pyStrip (s : String) : String :=
  String.mk (((s.toList.dropWhile isPySpace).reverse.dropWhile isPySpace).reverse)

/-- Models Python `s.splitlines()` for `\n`-separated text: the list of
lines, without a trailing empty line for `\n`-terminated content, and
`[]` for the empty string. -/
def pySplitlines (s : String) : List String :=
  if s.toList = [] then []
  else
    let l := pySplit s '\n'
    if l.getLastD "?" = "" then l.dropLast else l

/-- Code-point lexicographic comparison of character lists; the order in
which Python compares strings (and hence sorts paths). -/
def charListLe : List Char → List Char → Bool
  | [], _ => true
  | _ :: _, [] => false
  | x :: xs, y :: ys => if x = y then charListLe xs ys else decide (x < y)

/-- Code-point lexicographic `≤` on strings, the order used by Python's
`sorted` on paths. -/
def strLe (a b : String) : Bool := charListLe a.toList b.toList

/-- A string of `n` backticks: models Python `'\x60' * n`. -/
def mkBackticks (n : Nat) : String := String.mk (List.replicate n backtickChar)

/-! ## The static tables of the module -/

/-- `LANGUAGE_MAP` from the source: extension → language tag. -/
def LANGUAGE_MAP : List (String × String) := [
  (".py", "python"),
  (".js", "javascript"),
  (".ts", "typescript"),
  (".tsx", "typescript"),
  (".jsx", "javascript"),
  (".java", "java"),
  (".c", "c"),
  (".cpp", "cpp"),
  (".cc", "cpp"),
  (".cxx", "cpp"),
  (".h", "c"),
  (".hpp", "cpp"),
  (".cs", "csharp"),
  (".go", "go"),
  (".rs", "rust"),
  (".php", "php"),
  (".rb", "ruby"),
  (".swift", "swift"),
  (".kt", "kotlin"),
  (".scala", "scala"),
  (".sh", "bash"),
  (".bash", "bash"),
  (".zsh", "zsh"),
  (".fish", "fish"),
  (".ps1", "powershell"),
  (".sql", "sql"),
  (".html", "html"),
  (".css", "css"),
  (".scss", "scss"),
  (".sass", "sass"),
  (".less", "less"),
  (".xml", "xml"),
  (".json", "json"),
  (".yaml", "yaml"),
  (".yml", "yaml"),
  (".toml", "toml"),
  (".ini", "ini"),
  (".cfg", "ini"),
  (".conf", "ini"),
  (".md", "markdown"),
  (".txt", "text"),
  (".log", "text"),
  (".env", "bash"),
  (".dockerfile", "dockerfile"),
  (".makefile", "makefile"),
  (".gradle", "gradle"),
  (".r", "r"),
  (".R", "r"),
  (".m", "matlab"),
  (".pl", "perl"),
  (".lua", "lua"),
  (".vim", "vim"),
  (".dart", "dart"),
  (".elm", "elm"),
  (".ex", "elixir"),
  (".exs", "elixir"),
  (".clj", "clojure"),
  (".cljs", "clojure"),
  (".hs", "haskell"),
  (".ml", "ocaml"),
  (".fs", "fsharp"),
  (".jl", "julia"),
  (".nim", "nim"),
  (".zig", "zig")]

/-- `DEFAULT_IGNORE_PATTERNS` from the source. -/
def DEFAULT_IGNORE_PATTERNS : List String := [
  ".git",
  ".gitignore",
  ".gitmodules",
  "__pycache__",
  ".pytest_cache",
  "node_modules",
  ".npm",
  ".yarn",
  "package-lock.json",
  "yarn.lock",
  ".env",
  ".venv",
  "env",
  "venv",
  ".DS_Store",
  "Thumbs.db",
  "*.pyc",
  "*.pyo",
  "*.pyd",
  "*.so",
  "*.dylib",
  "*.dll",
  "*.exe",
  "*.o",
  "*.obj",
  "*.a",
  "*.lib",
  "*.log",
  ".idea",
  ".vscode",
  ".vs",
  "*.swp",
  "*.swo",
  "*~",
  ".coverage",
  ".nyc_output",
  "coverage",
  "dist",
  "build",
  "target",
  "bin",
  "obj",
  ".next",
  ".nuxt",
  ".svelte-kit",
  "node_modules.nosync",
  ".tmp",
  ".temp"]

/-! ## `get_file_language` -/

/-- The `for i in range(len(parts) - 1, 0, -1)` loop of
`get_file_language`: scan the given suffix parts from rightmost to
leftmost (the argument is `parts[1:]`, checked last element first) and
return the table entry of the first suffix found. -/
def scanExtensions : List String → Option String
  | [] => none
  | p :: rest =>
    match scanExtensions rest with
    | some lang => some lang
    | none => LANGUAGE_MAP.lookup ("." ++ p)

/-- Models `file_path.suffix.lower()` — `pathlib`'s last-dot rule — as a
function of the dot-split parts of the already lowercased file name: the
suffix is `"." ++ last part` unless the name has no dot, starts with its
only dot (a dotfile) or ends with a dot, in which case it is `""`.
Lowercasing first commutes with taking the suffix because case mapping
fixes `.`. -/
def pySuffixFromParts (parts : List String) : String :=
  if 2 ≤ parts.length ∧ parts.getLastD "" ≠ "" ∧ ¬(parts.length = 2 ∧ parts.headD "" = "") then
    "." ++ parts.getLastD ""
  else ""

/-- `get_file_language` from the source, as a function of
`file_path.name`. -/
def get_file_language (name : String) : String :=
  let filename := pyLower name
  if pyContainsChar filename '.' = false then
    if filename ∈ (["dockerfile", "makefile", "rakefile", "gemfile"] : List String) then filename
    else if pyStartsWith filename "makefile" then "makefile"
    else "text"
  else
    let parts := pySplit filename '.'
    match scanExtensions (parts.drop 1) with
    | some lang => lang
    | none => (LANGUAGE_MAP.lookup (pySuffixFromParts parts)).getD "text"

/-- Modelled from the spec's words for comparison with
`get_file_language` (claim C4): split the lowercased name on `.`, scan
the suffixes from rightmost to leftmost excluding the base name, return
the table language of the first suffix present, and `"text"` when no
suffix is in the table. -/
def specLangResolve (name : String) : String :=
  match scanExtensions ((pySplit (pyLower name) '.').drop 1) with
  | some lang => lang
  | none => "text"

/-! ## `should_ignore_file` -/

/-- A `pathlib.Path` is modeled by its `parts` tuple (for an absolute
path the first part is `"/"`). -/
abbrev PyPath := List String

/-- Models `path.name`: the last part (`""` for an empty path). -/
def pyPathName (parts : PyPath) : String := parts.getLastD ""

/-- `should_ignore_file` from the source: the pattern loop with its
three early-return tests, folded into a short-circuit `any`. -/
def should_ignore_file (path_parts : PyPath) (ignore_patterns : List String) : Bool :=
  let filename := pyPathName path_parts
  ignore_patterns.any (fun pattern =>
    pattern == filename
      || (pyStartsWith pattern "*" && pyEndsWith filename (pyDrop pattern 1))
      || path_parts.contains pattern)

/-! ## `count_max_backticks` and `read_file_content` -/

/-- One iteration of the `count_max_backticks` loop on the state
`(max_backticks, current_backticks)`. -/
def backtickStep (st : Nat × Nat) (c : Char) : Nat × Nat :=
  if c = backtickChar then (max st.1 (st.2 + 1), st.2 + 1) else (st.1, 0)

/-- `count_max_backticks` from the source: the `(max_backticks,
current_backticks)` loop over the characters of the content. -/
def count_max_backticks (content : String) : Nat :=
  (content.toList.foldl backtickStep ((0, 0) : Nat × Nat)).1

/-- The outcome the file system hands `read_file_content`: a successful
UTF-8 decode, a `UnicodeDecodeError` (carrying the raw bytes, each
`< 256`, for the latin-1 fallback), or any other `OSError`-like failure
with its message. -/
inductive ReadOutcome where
  | utf8 (content : String)
  | decodeError (bytes : List Nat)
  | ioError (reason : String)
deriving DecidableEq

/-- Models `f"{i:>4}→{line}"`: the 1-based line number right-aligned to
width 4, the arrow glyph, then the line. -/
def formatNumberedLine (i : Nat) (line : String) : String :=
  let s := toString i
  String.mk (List.replicate (4 - s.toList.length) ' ') ++ s ++ "→" ++ line

/-- The line-numbering block of `read_file_content`:
`'\n'.join(f"{i:>4}→{line}" for i, line in enumerate(lines, 1))`. -/
def numberLines (content : String) : String :=
  String.intercalate "\n"
    ((pySplitlines content).enum.map (fun p => formatNumberedLine (p.1 + 1) p.2))

/-- Models decoding with `encoding='latin-1'`: every byte becomes the
character with that code point (total — latin-1 never fails). -/
def latin1Decode (bytes : List Nat) : String :=
  String.mk (bytes.map (fun b => Char.ofNat (b % 256)))

/-- `read_file_content` from the source.  The `try/except` ladder is
driven by the `ReadOutcome` the file system produces; the second
(latin-1) `open` of the same file is modeled as succeeding, so the inner
`except Exception` branch (`"[Error reading file: Unable to decode]"`)
is unreachable in the model. -/
def read_file_content (outcome : ReadOutcome) (include_line_numbers : Bool) : String :=
  match outcome with
  | .utf8 content =>
      if include_line_numbers then numberLines content else content
  | .decodeError bytes =>
      let content := latin1Decode bytes
      if (content.toList.take 100).all (fun c => c.toNat < 128) then
        if include_line_numbers then numberLines content else content
      else "[Binary file - content not displayed]"
  | .ioError reason => "[Error reading file: " ++ reason ++ "]"

/-! ## File-system, effect and world model -/

/-- A regular file of the modeled file system: its canonical path
string, its `stat` size, whether `stat` succeeds, and what opening and
decoding it produces.  Paths in the model are taken as canonical
strings: the model identifies a path argument with the path it denotes,
so no separate resolution step is modeled. -/
structure FileNode where
  path : String
  size : Nat
  statOk : Bool
  read : ReadOutcome

/-- The ambient state a `build_context` call runs against: the regular
files and directories of the file system, the process working directory
(`os.getcwd()`), whether writing the output file fails (and with which
message), and the external summarizer collaborator
`prompt text × model ↦ response`. -/
structure World where
  files : List FileNode
  dirs : List String
  cwd : String
  writeFail : Option String
  summarize : String → String → String

/-- The observable side effects of a call, in order: `os.chdir`,
a recursive directory walk, a `stat`, opening a file for reading, a
summarizer round-trip, writing the output document, and a logged
warning. -/
inductive Effect where
  | chdirE (dest : String)
  | globE (dir : String)
  | statE (path : String)
  | readE (path : String)
  | summarizeE (path : String) (model : String)
  | writeE (path : String) (doc : String)
  | warnE (msg : String)
deriving DecidableEq

/-- Is this effect a working-directory change? -/
def Effect.isChdirE : Effect → Bool
  | .chdirE _ => true
  | _ => false

/-- Is this effect a summarizer call? -/
def Effect.isSummarizeE : Effect → Bool
  | .summarizeE _ _ => true
  | _ => false

/-- Models `pathlib.Path(p).parts` for a POSIX path string: the root
marker `"/"` for an absolute path followed by the nonempty components. -/
def pyParts (p : String) : PyPath :=
  if pyStartsWith p "/" then "/" :: ((pySplit (pyDrop p 1) '/').filter (fun s => s ≠ ""))
  else (pySplit p '/').filter (fun s => s ≠ "")

/-- Models `Path(p).exists()`. -/
def pathExists (w : World) (p : String) : Bool :=
  w.dirs.contains p || w.files.any (fun n => n.path == p)

/-- Models `Path(p).is_dir()`. -/
def isDirB (w : World) (p : String) : Bool := w.dirs.contains p

/-- The file node stored at a path, when the path is a regular file. -/
def findNode (w : World) (p : String) : Option FileNode :=
  w.files.find? (fun n => n.path == p)

/-- What `open(p)` produces in this world (opening a path that is not a
regular file fails like a missing file). -/
def readOf (w : World) (p : String) : ReadOutcome :=
  match findNode w p with
  | some n => n.read
  | none => ReadOutcome.ioError "No such file or directory"

/-- Is `p` strictly below directory `d` (what `d.rglob('*')` reaches)? -/
def underDir (d p : String) : Bool :=
  (pyParts d).isPrefixOf (pyParts p) && decide ((pyParts d).length < (pyParts p).length)

/-- The regular files `d.rglob('*')` yields (its directory entries are
discarded by the `is_file()` filter in the source). -/
def filesUnder (w : World) (d : String) : List FileNode :=
  w.files.filter (fun n => underDir d n.path)

/-! ## `collect_files` -/

/-- The body of the `rglob` loop of `collect_files` for one regular
file: drop it silently when ignored, warn and drop it when `stat` fails
or reports more than 1 MiB, otherwise collect it. -/
def dirFileStep (pats : List String) (n : FileNode) : List String × List Effect :=
  if should_ignore_file (pyParts n.path) pats then ([], [])
  else if n.statOk = false then
    ([], [Effect.statE n.path, Effect.warnE ("Cannot access file " ++ n.path)])
  else if 1024 * 1024 < n.size then
    ([], [Effect.statE n.path, Effect.warnE ("Skipping large file: " ++ n.path)])
  else ([n.path], [Effect.statE n.path])

/-- The directory loop body of `collect_files`: warn and skip a missing
path or a non-directory, otherwise walk the directory and run
`dirFileStep` on every regular file under it. -/
def collectFromDir (w : World) (pats : List String) (d : String) : List String × List Effect :=
  if pathExists w d = false then ([], [Effect.warnE ("Directory does not exist: " ++ d)])
  else if isDirB w d = false then ([], [Effect.warnE ("Not a directory: " ++ d)])
  else
    let steps := (filesUnder w d).map (dirFileStep pats)
    ((steps.map Prod.fst).flatten, Effect.globE d :: (steps.map Prod.snd).flatten)

/-- The explicit-file loop body of `collect_files`: warn and skip a
missing path or a non-file, drop an ignored file (the source logs this
at info level, not warning), then apply the same `stat`/size checks as
the directory walk. -/
def explicitFileStep (w : World) (pats : List String) (f : String) : List String × List Effect :=
  if pathExists w f = false then ([], [Effect.warnE ("File does not exist: " ++ f)])
  else
    match findNode w f with
    | none => ([], [Effect.warnE ("Not a file: " ++ f)])
    | some n =>
      if should_ignore_file (pyParts f) pats then ([], [])
      else if n.statOk = false then
        ([], [Effect.statE f, Effect.warnE ("Cannot access file " ++ f)])
      else if 1024 * 1024 < n.size then
        ([], [Effect.statE f, Effect.warnE ("Skipping large file: " ++ f)])
      else ([f], [Effect.statE f])

/-- The whole directory phase of `collect_files` (the `if directories:`
loop; an empty list contributes nothing, exactly like a falsy argument). -/
def dirPhase (w : World) (pats : List String) (directories : List String) :
    List String × List Effect :=
  let rs := directories.map (collectFromDir w pats)
  ((rs.map Prod.fst).flatten, (rs.map Prod.snd).flatten)

/-- The whole explicit-file phase of `collect_files`. -/
def filePhase (w : World) (pats : List String) (files : List String) :
    List String × List Effect :=
  let rs := files.map (explicitFileStep w pats)
  ((rs.map Prod.fst).flatten, (rs.map Prod.snd).flatten)

/-- Code-point order on path strings, the order Python's `sorted` uses
on the collected paths. -/
def pathLe (a b : String) : Prop := strLe a b = true

instance : DecidableRel pathLe := fun a b => inferInstanceAs (Decidable (strLe a b = true))

/-- Models `sorted(list(set(l)))`: deduplicate, then sort ascending. -/
def pySortedDedup (l : List String) : List String := l.dedup.insertionSort pathLe

/-- `collect_files` from the source, returning the collected paths and
the effect trace of the collection. -/
def collect_files (w : World) (directories files : List String)
    (ignore_patterns : Option (List String)) : List String × List Effect :=
  let pats := ignore_patterns.getD DEFAULT_IGNORE_PATTERNS
  let dp := dirPhase w pats directories
  let fp := filePhase w pats files
  (pySortedDedup (dp.1 ++ fp.1), dp.2 ++ fp.2)

/-! ## Summarization and document assembly -/

/-- The `summary_prompt` f-string of `generate_file_summary`. -/
def summaryPromptText (fp content : String) : String :=
  "\nAnalyze this file and provide a brief 1-2 sentence summary of its purpose and functionality.\n\nFile: "
    ++ fp ++ "\n\nContent:\n```\n" ++ pyTake content 2000
    ++ "...\n```\n\nRespond only with the summary, no additional text.\n"

/-- `generate_file_summary` from the source.  `prompt` is the external
summarizer collaborator, modeled as the total oracle `w.summarize`; its
empty-response and exception fallbacks are collaborator-internal and out
of scope. -/
def generate_file_summary (w : World) (fp content model : String) : String :=
  pyStrip (w.summarize (summaryPromptText fp content) model)

/-- Python truthiness of an optional string: present and nonempty. -/
def truthyS : Option String → Bool
  | none => false
  | some s => !s.toList.isEmpty

/-- Models `file_path.relative_to(Path.cwd())` with the source's
`except ValueError` fallback: the path relative to `cwd` when `cwd` is a
prefix of it, otherwise the path unchanged. -/
def pyRelativeToCwd (cwd fp : String) : String :=
  let cp := pyParts cwd
  let fpp := pyParts fp
  if cp.isPrefixOf fpp then
    let rest := fpp.drop cp.length
    if rest = [] then "." else String.intercalate "/" rest
  else fp

/-- Rough model of `Path(p).parent`; only ever used by the dead
`base_path` computation of `build_context`. -/
def pyParent (p : String) : String :=
  String.intercalate "/" ((pySplit p '/').dropLast)

/-- The `### File Contents` code block of one file section: a fence of
`count_max_backticks content + 1` backticks for the `markdown` language
tag, a plain 3-backtick fence otherwise. -/
def contentsBlock (language file_content : String) : List String :=
  if language == "markdown" then
    let fence_backticks := mkBackticks (count_max_backticks file_content + 1)
    [fence_backticks ++ language, file_content, fence_backticks, ""]
  else
    ["```" ++ language, file_content, "```", ""]

/-- The arguments of `build_context`.  Python conflates absent and empty
lists by truthiness, so the two list arguments default to `[]`. -/
structure BuildArgs where
  directories : List String := []
  files : List String := []
  output_file : String
  overview_text : Option String := none
  summarize_model : Option String := none
  ignore_patterns : Option (List String) := none
  base_directory : Option String := none
  current_working_directory : Option String := none
  include_line_numbers : Bool := true

/-- The loop body of `build_context` for one collected file: heading
(path relative to the effective working directory when possible),
summary subsection (summarizer called exactly when a model was given and
the rendered content does not start with `[`), and the fenced contents
subsection.  Returns the section lines and the effects of the step.  The
source wraps this body in a per-file `except` that no modeled operation
can trigger, all of them being total. -/
def renderFile (w : World) (a : BuildArgs) (cwd1 : String) (fp : String) :
    List String × List Effect :=
  let relative_path := pyRelativeToCwd cwd1 fp
  let file_content := read_file_content (readOf w fp) a.include_line_numbers
  let language := get_file_language (pyPathName (pyParts fp))
  let summaryPart : List String × List Effect :=
    if truthyS a.summarize_model && !(pyStartsWith file_content "[") then
      let m := a.summarize_model.getD ""
      (["### Summary", generate_file_summary w fp file_content m, ""],
       [Effect.summarizeE fp m])
    else
      (["### Summary", "[No summary available]", ""], [])
  (["## " ++ relative_path] ++ summaryPart.1 ++ ["### File Contents"]
     ++ contentsBlock language file_content,
   [Effect.readE fp] ++ summaryPart.2)

/-- The whole per-file loop of `build_context`. -/
def renderAll (w : World) (a : BuildArgs) (cwd1 : String) (fps : List String) :
    List String × List Effect :=
  let rs := fps.map (renderFile w a cwd1)
  ((rs.map Prod.fst).flatten, (rs.map Prod.snd).flatten)

/-- The error outcomes `build_context` can raise: the up-front
validation `ValueError` and the `ValueError` wrapping any failure inside
the main `try` (in the model, only the output write can fail there). -/
inductive BcErr where
  | configError
  | writeError (msg : String)
deriving DecidableEq

/-- `build_context` from the source, as a function of the world and the
arguments.  Returns the result (`Except` models raising), the final
process working directory, and the effect trace in program order.
`base_path` is computed as in the source but never used afterwards.
The `finally` block restores the working directory only when
`original_cwd` is truthy, exactly like the source's `if original_cwd:`. -/
def build_context (w : World) (a : BuildArgs) :
    Except BcErr String × String × List Effect :=
  if a.directories = [] ∧ a.files = [] then
    (Except.error BcErr.configError, w.cwd, [])
  else
    let cwdChanged := truthyS a.current_working_directory
    let cwd1 := if cwdChanged then a.current_working_directory.getD "" else w.cwd
    let chdirEffs := if cwdChanged then [Effect.chdirE cwd1] else []
    let original_cwd : Option String := if cwdChanged then some w.cwd else none
    let _base_path : String :=
      if truthyS a.base_directory then a.base_directory.getD ""
      else if ¬(a.directories = []) then a.directories.headD ""
      else if ¬(a.files = []) then pyParent (a.files.headD "")
      else cwd1
    let collected := collect_files w a.directories a.files a.ignore_patterns
    let rendered := renderAll w a cwd1 collected.1
    let content_lines :=
      (if truthyS a.overview_text then [a.overview_text.getD "", ""] else [])
        ++ ["# Files", ""] ++ rendered.1
    let doc := String.intercalate "\n" content_lines
    let written : Except BcErr String × List Effect :=
      match w.writeFail with
      | none => (Except.ok a.output_file, [Effect.writeE a.output_file doc])
      | some reason =>
          (Except.error (BcErr.writeError ("Error writing context file: " ++ reason)), [])
    let restore : String × List Effect :=
      if truthyS original_cwd then (w.cwd, [Effect.chdirE w.cwd]) else (cwd1, [])
    (written.1, restore.1, chdirEffs ++ collected.2 ++ rendered.2 ++ written.2 ++ restore.2)

/-! ## Helper lemmas -/

theorem getLastD_mem : ∀ (t : List String) (b d : String), (b :: t).getLastD d ∈ b :: t
  | [], _, _ => by simp [List.getLastD]
  | c :: t, b, _ => by
    rw [List.getLastD_cons]
    exact List.mem_cons_of_mem b (getLastD_mem t c b)

theorem scanExtensions_none :
    ∀ {L : List String}, scanExtensions L = none →
      ∀ p ∈ L, LANGUAGE_MAP.lookup ("." ++ p) = none := by
  intro L
  induction L with
  | nil => intro _ p hp; cases hp
  | cons q rest ih =>
    intro h p hp
    simp only [scanExtensions] at h
    cases hres : scanExtensions rest with
    | some lang => rw [hres] at h; cases h
    | none =>
      rw [hres] at h
      rcases List.mem_cons.mp hp with rfl | hmem
      · exact h
      · exact ih hres p hmem

theorem lookup_pySuffix_of_scan_none :
    ∀ {parts : List String}, scanExtensions (parts.drop 1) = none →
      LANGUAGE_MAP.lookup (pySuffixFromParts parts) = none := by
  intro parts h
  match parts with
  | [] => rfl
  | [a] => rfl
  | a :: b :: t =>
    unfold pySuffixFromParts
    split
    · have hmem : (a :: b :: t).getLastD "" ∈ b :: t := by
        rw [List.getLastD_cons]
        exact getLastD_mem t b a
      exact scanExtensions_none h _ hmem
    · rfl

/-! ## Claim C4 -/

/-- C4: for every filename containing a dot, `get_file_language` agrees
with the pure right-to-left suffix scan of the spec — split the
lowercased name on `.`, scan suffixes rightmost to leftmost excluding
the base name, return the table language of the first suffix in the
table and `text` when none is (the source's final `suffix`-based
fallback can never produce anything else, since the last suffix was
already scanned); and `config.yaml.example`, `app.js.backup`,
`Dockerfile` and `Makefile` resolve to `yaml`, `javascript`,
`dockerfile` and `makefile`. -/
theorem c4_language_resolution :
    (∀ name : String, pyContainsChar (pyLower name) '.' = true →
        get_file_language name = specLangResolve name)
    ∧ get_file_language "config.yaml.example" = "yaml"
    ∧ get_file_language "app.js.backup" = "javascript"
    ∧ get_file_language "Dockerfile" = "dockerfile"
    ∧ get_file_language "Makefile" = "makefile" := by
  refine ⟨?_, rfl, rfl, rfl, rfl⟩
  intro name h
  unfold get_file_language specLangResolve
  simp only [h, Bool.true_eq_false, if_false]
  cases hscan : scanExtensions ((pySplit (pyLower name) '.').drop 1) with
  | some lang => simp [hscan]
  | none => simp [hscan, lookup_pySuffix_of_scan_none hscan]

/-- Witness for C4 at `config.yaml.example`. -/
theorem c4_language_resolution_witness :
    pyContainsChar (pyLower "config.yaml.example") '.' = true
    ∧ get_file_language "config.yaml.example" = specLangResolve "config.yaml.example" :=
  ⟨rfl, c4_language_resolution.1 "config.yaml.example" rfl⟩

/-! ## Claim C5 -/

theorem should_ignore_file_iff (path_parts : PyPath) (pats : List String) :
    should_ignore_file path_parts pats = true ↔
      ∃ pattern ∈ pats,
        pattern = pyPathName path_parts
          ∨ (pyStartsWith pattern "*" = true
              ∧ pyEndsWith (pyPathName path_parts) (pyDrop pattern 1) = true)
          ∨ pattern ∈ path_parts := by
  unfold should_ignore_file
  rw [List.any_eq_true]
  constructor
  · rintro ⟨pat, hmem, hp⟩
    refine ⟨pat, hmem, ?_⟩
    simp only [Bool.or_eq_true, Bool.and_eq_true, beq_iff_eq] at hp
    rcases hp with (h | h) | h
    · exact Or.inl h
    · exact Or.inr (Or.inl h)
    · exact Or.inr (Or.inr (by simpa using h))
  · rintro ⟨pat, hmem, hp⟩
    refine ⟨pat, hmem, ?_⟩
    simp only [Bool.or_eq_true, Bool.and_eq_true, beq_iff_eq]
    rcases hp with h | h | h
    · exact Or.inl (Or.inl h)
    · exact Or.inl (Or.inr h)
    · exact Or.inr (by simpa using h)

/-- C5: `should_ignore_file` returns `true` exactly when some pattern
matches the base name exactly, wildcard-matches it, or equals a path
component; and the result is invariant under permuting the pattern
list. -/
theorem c5_should_ignore (path_parts : PyPath) (pats : List String) :
    (should_ignore_file path_parts pats = true ↔
      ∃ pattern ∈ pats,
        pattern = pyPathName path_parts
          ∨ (pyStartsWith pattern "*" = true
              ∧ pyEndsWith (pyPathName path_parts) (pyDrop pattern 1) = true)
          ∨ pattern ∈ path_parts)
    ∧ ∀ pats' : List String, pats.Perm pats' →
        should_ignore_file path_parts pats = should_ignore_file path_parts pats' := by
  refine ⟨should_ignore_file_iff _ _, ?_⟩
  intro pats' hperm
  have h1 := should_ignore_file_iff path_parts pats
  have h2 := should_ignore_file_iff path_parts pats'
  cases hb : should_ignore_file path_parts pats with
  | true =>
    rcases h1.mp hb with ⟨pat, hm, hp⟩
    exact (h2.mpr ⟨pat, hperm.mem_iff.mp hm, hp⟩).symm
  | false =>
    cases hb' : should_ignore_file path_parts pats' with
    | false => rfl
    | true =>
      rcases h2.mp hb' with ⟨pat, hm, hp⟩
      have := h1.mpr ⟨pat, hperm.mem_iff.mpr hm, hp⟩
      simp [this] at hb
  
/-- Witness for C5: a `*.pyc` wildcard match, invariant under swapping
the two patterns. -/
theorem c5_should_ignore_witness :
    should_ignore_file ["src", "main.pyc"] ["*.pyc", ".git"] = true
    ∧ should_ignore_file ["src", "main.pyc"] ["*.pyc", ".git"]
        = should_ignore_file ["src", "main.pyc"] [".git", "*.pyc"] :=
  ⟨(c5_should_ignore ["src", "main.pyc"] ["*.pyc", ".git"]).1.mpr
      ⟨"*.pyc", by simp, Or.inr (Or.inl ⟨rfl, rfl⟩)⟩,
   (c5_should_ignore ["src", "main.pyc"] ["*.pyc", ".git"]).2 [".git", "*.pyc"]
      (List.Perm.swap ".git" "*.pyc" [])⟩

/-! ## Claim C7 -/

/-- C7: `read_file_content` is a total function into strings (so it
never raises): a UTF-8 success is returned (numbered on request); on a
decode error the latin-1 fallback content is kept exactly when its
first 100 characters are ASCII, and otherwise the literal binary
placeholder is returned; any other I/O failure yields
`[Error reading file: <reason>]`. -/
theorem c7_read_content_total (outcome : ReadOutcome) (flag : Bool) :
    (∀ content, outcome = ReadOutcome.utf8 content →
        read_file_content outcome flag = if flag then numberLines content else content)
    ∧ (∀ bytes, outcome = ReadOutcome.decodeError bytes →
        (((latin1Decode bytes).toList.take 100).all (fun c => c.toNat < 128) = true →
            read_file_content outcome flag =
              if flag then numberLines (latin1Decode bytes) else latin1Decode bytes)
        ∧ (((latin1Decode bytes).toList.take 100).all (fun c => c.toNat < 128) = false →
            read_file_content outcome flag = "[Binary file - content not displayed]"))
    ∧ (∀ reason, outcome = ReadOutcome.ioError reason →
        read_file_content outcome flag = "[Error reading file: " ++ reason ++ "]") := by
  refine ⟨?_, ?_, ?_⟩
  · rintro content rfl; rfl
  · rintro bytes rfl
    have hred : read_file_content (ReadOutcome.decodeError bytes) flag
        = if ((latin1Decode bytes).toList.take 100).all (fun c => c.toNat < 128) = true
          then (if flag then numberLines (latin1Decode bytes) else latin1Decode bytes)
          else "[Binary file - content not displayed]" := rfl
    constructor
    · intro hall; rw [hred, if_pos hall]
    · intro hall; rw [hred, if_neg (by rw [hall]; exact Bool.false_ne_true)]
  · rintro reason rfl; rfl

/-- Witness for C7: a non-ASCII byte stream yields the binary
placeholder; an I/O error yields the error placeholder. -/
theorem c7_read_content_total_witness :
    read_file_content (ReadOutcome.decodeError [200, 65]) false
        = "[Binary file - content not displayed]"
    ∧ read_file_content (ReadOutcome.ioError "denied") true
        = "[Error reading file: denied]" :=
  ⟨((c7_read_content_total (ReadOutcome.decodeError [200, 65]) false).2.1 [200, 65] rfl).2 rfl,
   (c7_read_content_total (ReadOutcome.ioError "denied") true).2.2 "denied" rfl⟩

/-! ## Order lemmas for the collected-path sort -/

theorem charListLe_total : ∀ a b : List Char, charListLe a b = true ∨ charListLe b a = true
  | [], _ => Or.inl rfl
  | _ :: _, [] => Or.inr rfl
  | x :: xs, y :: ys => by
    by_cases hxy : x = y
    · subst hxy
      rcases charListLe_total xs ys with h | h
      · exact Or.inl (by simpa [charListLe] using h)
      · exact Or.inr (by simpa [charListLe] using h)
    · rcases lt_trichotomy x y with h | h | h
      · exact Or.inl (by simp [charListLe, hxy, h])
      · exact absurd h hxy
      · exact Or.inr (by simp [charListLe, Ne.symm hxy, h])

theorem charListLe_trans : ∀ a b c : List Char,
    charListLe a b = true → charListLe b c = true → charListLe a c = true
  | [], _, _ => by intro _ _; rfl
  | _ :: _, [], _ => by intro h _; exact absurd h (by simp [charListLe])
  | _ :: _, _ :: _, [] => by intro _ h; exact absurd h (by simp [charListLe])
  | x :: xs, y :: ys, z :: zs => by
    intro h1 h2
    by_cases hxy : x = y
    · subst hxy
      by_cases hyz : x = z
      · subst hyz
        simp only [charListLe, if_pos rfl] at h1 h2 ⊢
        exact charListLe_trans xs ys zs h1 h2
      · simp only [charListLe, if_neg hyz] at h2 ⊢
        exact h2
    · have hxy' : x < y := by simpa [charListLe, hxy] using h1
      by_cases hyz : y = z
      · subst hyz
        simp [charListLe, hxy, hxy']
      · have hyz' : y < z := by simpa [charListLe, hyz] using h2
        have hxz : x < z := lt_trans hxy' hyz'
        simp [charListLe, ne_of_lt hxz, hxz]

instance : IsTrans String pathLe :=
  ⟨fun a b c h1 h2 => charListLe_trans a.toList b.toList c.toList h1 h2⟩

instance : IsTotal String pathLe :=
  ⟨fun a b => charListLe_total a.toList b.toList⟩

theorem pySortedDedup_nodup (l : List String) : (pySortedDedup l).Nodup :=
  ((List.perm_insertionSort pathLe l.dedup).symm).nodup (List.nodup_dedup l)

theorem pySortedDedup_sorted (l : List String) : List.Sorted pathLe (pySortedDedup l) :=
  List.sorted_insertionSort pathLe l.dedup

theorem mem_pySortedDedup {a : String} {l : List String} : a ∈ pySortedDedup l ↔ a ∈ l :=
  ((List.perm_insertionSort pathLe l.dedup).mem_iff).trans List.mem_dedup

/-! ## Claim C6 -/

/-- C6: the list `collect_files` returns has no duplicates, is sorted
ascending in path order, its members are exactly the union of the
directory-walk phase and the valid explicit files, and a path gathered
by both phases appears exactly once. -/
theorem c6_collect_dedup_sorted (w : World) (directories files : List String)
    (ip : Option (List String)) :
    (collect_files w directories files ip).1.Nodup
    ∧ List.Sorted pathLe (collect_files w directories files ip).1
    ∧ (∀ p, p ∈ (collect_files w directories files ip).1 ↔
        p ∈ (dirPhase w (ip.getD DEFAULT_IGNORE_PATTERNS) directories).1
          ∨ p ∈ (filePhase w (ip.getD DEFAULT_IGNORE_PATTERNS) files).1)
    ∧ (∀ p, p ∈ (dirPhase w (ip.getD DEFAULT_IGNORE_PATTERNS) directories).1 →
        p ∈ (filePhase w (ip.getD DEFAULT_IGNORE_PATTERNS) files).1 →
        (collect_files w directories files ip).1.count p = 1) := by
  have hc : (collect_files w directories files ip).1
      = pySortedDedup ((dirPhase w (ip.getD DEFAULT_IGNORE_PATTERNS) directories).1
          ++ (filePhase w (ip.getD DEFAULT_IGNORE_PATTERNS) files).1) := rfl
  refine ⟨?_, ?_, ?_, ?_⟩
  · rw [hc]; exact pySortedDedup_nodup _
  · rw [hc]; exact pySortedDedup_sorted _
  · intro p; rw [hc, mem_pySortedDedup, List.mem_append]
  · intro p hd _
    rw [hc]
    exact List.count_eq_one_of_mem (pySortedDedup_nodup _)
      (mem_pySortedDedup.mpr (List.mem_append.mpr (Or.inl hd)))

/-- A world for the C6 witness: two files under `/p`, one of them also
listed explicitly. -/
def wC6 : World :=
  { files := [{ path := "/p/a.py", size := 10, statOk := true, read := ReadOutcome.utf8 "x" },
              { path := "/p/b.py", size := 10, statOk := true, read := ReadOutcome.utf8 "y" }],
    dirs := ["/p"], cwd := "/p", writeFail := none, summarize := fun _ _ => "" }

/-- Witness for C6: a file reachable both through the walk of `/p` and
as an explicit file appears exactly once, in sorted order. -/
theorem c6_collect_dedup_sorted_witness :
    (collect_files wC6 ["/p"] ["/p/a.py"] none).1 = ["/p/a.py", "/p/b.py"]
    ∧ (collect_files wC6 ["/p"] ["/p/a.py"] none).1.count "/p/a.py" = 1 :=
  ⟨rfl,
   (c6_collect_dedup_sorted wC6 ["/p"] ["/p/a.py"] none).2.2.2 "/p/a.py"
     (by decide) (by decide)⟩

/-! ## Claim C10 -/

/-- C10: a directory argument that does not exist, or is not a
directory, makes `collect_files` record a warning and contributes no
files (the function is total, so no exception is possible); in
particular a single nonexistent directory with no explicit files
collects nothing. -/
theorem c10_missing_directory (w : World) (ip : Option (List String)) (ds fs : List String)
    (d : String) :
    (pathExists w d = false →
        collectFromDir w (ip.getD DEFAULT_IGNORE_PATTERNS) d
          = ([], [Effect.warnE ("Directory does not exist: " ++ d)]))
    ∧ (pathExists w d = true → isDirB w d = false →
        collectFromDir w (ip.getD DEFAULT_IGNORE_PATTERNS) d
          = ([], [Effect.warnE ("Not a directory: " ++ d)]))
    ∧ (d ∈ ds → pathExists w d = false →
        Effect.warnE ("Directory does not exist: " ++ d) ∈ (collect_files w ds fs ip).2)
    ∧ (pathExists w d = false → (collect_files w [d] [] ip).1 = []) := by
  refine ⟨?_, ?_, ?_, ?_⟩
  · intro h; simp [collectFromDir, h]
  · intro h1 h2; simp [collectFromDir, h1, h2]
  · intro hd hne
    have hcd : (collectFromDir w (ip.getD DEFAULT_IGNORE_PATTERNS) d).2
        = [Effect.warnE ("Directory does not exist: " ++ d)] := by
      simp [collectFromDir, hne]
    have hmem : Effect.warnE ("Directory does not exist: " ++ d)
        ∈ ((ds.map (collectFromDir w (ip.getD DEFAULT_IGNORE_PATTERNS))).map Prod.snd).flatten := by
      apply List.mem_flatten.mpr
      refine ⟨(collectFromDir w (ip.getD DEFAULT_IGNORE_PATTERNS) d).2, ?_, ?_⟩
      · exact List.mem_map.mpr
          ⟨collectFromDir w (ip.getD DEFAULT_IGNORE_PATTERNS) d,
           List.mem_map.mpr ⟨d, hd, rfl⟩, rfl⟩
      · rw [hcd]; exact List.mem_singleton.mpr rfl
    exact List.mem_append.mpr (Or.inl hmem)
  · intro h
    have hfst : (collectFromDir w (ip.getD DEFAULT_IGNORE_PATTERNS) d).1 = [] := by
      simp [collectFromDir, h]
    have hshape : (collect_files w [d] [] ip).1
        = pySortedDedup (((collectFromDir w (ip.getD DEFAULT_IGNORE_PATTERNS) d).1 ++ []) ++ []) :=
      rfl
    rw [hshape, hfst]
    rfl

/-- A world for the C10 witness: an empty file system. -/
def wC10 : World :=
  { files := [], dirs := [], cwd := "/", writeFail := none, summarize := fun _ _ => "" }

/-- Witness for C10: collecting from a single nonexistent directory
returns the empty list and records the warning. -/
theorem c10_missing_directory_witness :
    (collect_files wC10 ["/nonexistent/directory"] [] none).1 = []
    ∧ Effect.warnE ("Directory does not exist: " ++ "/nonexistent/directory")
        ∈ (collect_files wC10 ["/nonexistent/directory"] [] none).2 :=
  ⟨(c10_missing_directory wC10 none ["/nonexistent/directory"] [] "/nonexistent/directory").2.2.2
      rfl,
   (c10_missing_directory wC10 none ["/nonexistent/directory"] [] "/nonexistent/directory").2.2.1
      (by simp) rfl⟩

/-! ## Claim C3 -/

/-- C3: two `build_context` calls differing only in `base_directory`
produce identical results, final working directories and effect traces —
the computed base path is dead code — and each file's heading line is
the path made relative to the effective working directory (with the
absolute fallback), independently of `base_directory`. -/
theorem c3_base_directory_unused (w : World) (a : BuildArgs) (bd1 bd2 : Option String) :
    build_context w { a with base_directory := bd1 }
      = build_context w { a with base_directory := bd2 }
    ∧ ∀ cwd1 fp, (renderFile w { a with base_directory := bd1 } cwd1 fp).1.head?
        = some ("## " ++ pyRelativeToCwd cwd1 fp) :=
  ⟨rfl, fun _ _ => rfl⟩

/-! ## Claim C8 -/

/-- C8: `build_context` raises the validation error exactly when both
`directories` and `files` are empty, and in that case it performs no
file-system access, no working-directory change and no write — the
effect trace is empty and the working directory is untouched. -/
theorem c8_validation_first (w : World) (a : BuildArgs) :
    ((a.directories = [] ∧ a.files = []) ↔
      (build_context w a).1 = Except.error BcErr.configError)
    ∧ (a.directories = [] → a.files = [] →
        build_context w a = (Except.error BcErr.configError, w.cwd, [])) := by
  refine ⟨⟨?_, ?_⟩, ?_⟩
  · intro h
    unfold build_context
    rw [if_pos h]
  · intro hres
    by_cases h : a.directories = [] ∧ a.files = []
    · exact h
    · exfalso
      unfold build_context at hres
      rw [if_neg h] at hres
      dsimp only at hres
      cases hw : w.writeFail with
      | none => rw [hw] at hres; simp at hres
      | some r => rw [hw] at hres; simp at hres
  · intro h1 h2
    unfold build_context
    rw [if_pos ⟨h1, h2⟩]

/-- A world for the C8 witness. -/
def wC8 : World :=
  { files := [], dirs := [], cwd := "/home/u", writeFail := none, summarize := fun _ _ => "" }

/-- Witness for C8: omitting both lists yields the configuration error
with an empty effect trace and an unchanged working directory. -/
theorem c8_validation_first_witness :
    build_context wC8 { output_file := "/out.md" }
      = (Except.error BcErr.configError, wC8.cwd, []) :=
  (c8_validation_first wC8 { output_file := "/out.md" }).2 rfl rfl

/-! ## Backtick-run lemmas for claim C1 -/

theorem backtickStep_fst_mono : ∀ (l : List Char) (m cur : Nat),
    m ≤ (l.foldl backtickStep (m, cur)).1
  | [], m, _ => le_refl m
  | c :: l, m, cur => by
    by_cases hc : c = backtickChar
    · simp only [List.foldl_cons, backtickStep, if_pos hc]
      exact le_trans (le_max_left m (cur + 1)) (backtickStep_fst_mono l (max m (cur + 1)) (cur + 1))
    · simp only [List.foldl_cons, backtickStep, if_neg hc]
      exact backtickStep_fst_mono l m 0

theorem backtickStep_inv : ∀ (l : List Char) (m cur : Nat), cur ≤ m →
    (l.foldl backtickStep (m, cur)).2 ≤ (l.foldl backtickStep (m, cur)).1
  | [], _, _, h => h
  | c :: l, m, cur, _ => by
    by_cases hc : c = backtickChar
    · simp only [List.foldl_cons, backtickStep, if_pos hc]
      exact backtickStep_inv l (max m (cur + 1)) (cur + 1) (le_max_right m (cur + 1))
    · simp only [List.foldl_cons, backtickStep, if_neg hc]
      exact backtickStep_inv l m 0 (Nat.zero_le m)

theorem backtickRun_le : ∀ (k : Nat) (t : List Char) (m cur : Nat), cur ≤ m →
    (∃ r, t = List.replicate k backtickChar ++ r) →
    k + cur ≤ (t.foldl backtickStep (m, cur)).1
  | 0, t, m, cur, hcm, _ => by
    simpa using le_trans hcm (backtickStep_fst_mono t m cur)
  | k + 1, _, m, cur, _, ⟨r, rfl⟩ => by
    have hstep : backtickStep (m, cur) backtickChar = (max m (cur + 1), cur + 1) := by
      simp [backtickStep]
    simp only [List.replicate_succ, List.cons_append, List.foldl_cons, hstep]
    have h := backtickRun_le k (List.replicate k backtickChar ++ r) (max m (cur + 1)) (cur + 1)
      (le_max_right m (cur + 1)) ⟨r, rfl⟩
    omega

theorem run_le_count_max {content : String} {k : Nat}
    (h : ∃ s t, content.toList = s ++ List.replicate k backtickChar ++ t) :
    k ≤ count_max_backticks content := by
  rcases h with ⟨s, t, hst⟩
  unfold count_max_backticks
  rw [hst, List.append_assoc, List.foldl_append]
  have hinv : (s.foldl backtickStep ((0, 0) : Nat × Nat)).2
      ≤ (s.foldl backtickStep ((0, 0) : Nat × Nat)).1 :=
    backtickStep_inv s 0 0 (le_refl 0)
  have hrun := backtickRun_le k (List.replicate k backtickChar ++ t)
    (s.foldl backtickStep ((0, 0) : Nat × Nat)).1
    (s.foldl backtickStep ((0, 0) : Nat × Nat)).2 hinv ⟨t, rfl⟩
  rw [Prod.mk.eta] at hrun
  omega

/-- The `max_backticks + 1` fence can never occur inside the content it
wraps: the content has no run of that many consecutive backticks. -/
theorem no_overlong_run (content : String) :
    ¬ ∃ s t, content.toList
        = s ++ List.replicate (count_max_backticks content + 1) backtickChar ++ t := by
  intro h
  have := run_le_count_max h
  omega

/-! ## Claim C1 -/

/-- C1 amended: in every rendered file section the contents block of a
`markdown`-tagged file is fenced with exactly
`count_max_backticks content + 1` backticks — with no lower bound of 4;
such a fence is strictly longer than every backtick run of the content,
so it cannot be closed prematurely — and every other language tag gets
exactly the 3-backtick fence. -/
theorem c1_fence_width (language file_content : String) :
    (language = "markdown" →
      contentsBlock language file_content
        = [mkBackticks (count_max_backticks file_content + 1) ++ language, file_content,
           mkBackticks (count_max_backticks file_content + 1), ""]
      ∧ (mkBackticks (count_max_backticks file_content + 1)).toList.length
          = count_max_backticks file_content + 1
      ∧ ¬ ∃ s t, file_content.toList
          = s ++ List.replicate (count_max_backticks file_content + 1) backtickChar ++ t)
    ∧ (language ≠ "markdown" →
        contentsBlock language file_content = ["```" ++ language, file_content, "```", ""])
    ∧ ∀ (w : World) (a : BuildArgs) (cwd1 fp : String), ∃ pre,
        (renderFile w a cwd1 fp).1
          = pre ++ contentsBlock (get_file_language (pyPathName (pyParts fp)))
              (read_file_content (readOf w fp) a.include_line_numbers) := by
  refine ⟨?_, ?_, ?_⟩
  · intro h
    subst h
    refine ⟨rfl, ?_, no_overlong_run file_content⟩
    simp [mkBackticks, String.toList]
  · intro h
    simp [contentsBlock, h]
  · intro w a cwd1 fp
    exact ⟨_, rfl⟩

/-- A world for the C1 counterexample: a Markdown file whose content has
no backticks at all. -/
def wC1 : World :=
  { files := [{ path := "/w/n.md", size := 5, statOk := true, read := ReadOutcome.utf8 "hello" }],
    dirs := ["/w"], cwd := "/w", writeFail := none, summarize := fun _ _ => "S" }

/-- The arguments for the C1 counterexample. -/
def aC1 : BuildArgs := { files := ["/w/n.md"], output_file := "/out.md" }

/-- C1 counterexample: for a Markdown file with no backticks in its
rendered content, the output document wraps the content in a fence of a
SINGLE backtick (see the written document in the trace), so the fence is
`max run + 1` but not at least 4 — the claimed minimum of 4 does not
exist in the code. -/
theorem c1_fence_width_counterexample :
    get_file_language "n.md" = "markdown"
    ∧ (build_context wC1 aC1).2.2
        = [Effect.statE "/w/n.md", Effect.readE "/w/n.md",
           Effect.writeE "/out.md"
             "# Files\n\n## n.md\n### Summary\n[No summary available]\n\n### File Contents\n`markdown\n   1→hello\n`\n"]
    ∧ (mkBackticks (count_max_backticks (read_file_content (readOf wC1 "/w/n.md") true) + 1)).toList.length
        = 1
    ∧ ¬ 4 ≤ (mkBackticks (count_max_backticks (read_file_content (readOf wC1 "/w/n.md") true) + 1)).toList.length :=
  ⟨rfl, rfl, rfl, by decide⟩

/-- Witness for C1 (amended): a 3-backtick run inside Markdown content
gets a 4-backtick fence; a `python` file gets the plain fence. -/
theorem c1_fence_width_witness :
    contentsBlock "markdown" "a```b" = ["````markdown", "a```b", "````", ""]
    ∧ contentsBlock "python" "x" = ["```python", "x", "```", ""] :=
  ⟨((c1_fence_width "markdown" "a```b").1 rfl).1,
   (c1_fence_width "python" "x").2.1 (by decide)⟩

/-! ## Bracket-prefix lemmas for claim C2 -/

theorem singleton_isPrefixOf_iff {c : Char} {l : List Char} :
    [c].isPrefixOf l = true ↔ ∃ r, l = c :: r := by
  cases l with
  | nil => simp [List.isPrefixOf]
  | cons x r =>
    constructor
    · intro h
      have hcx : c = x := by simpa [List.isPrefixOf] using h
      exact ⟨r, by rw [hcx]⟩
    · rintro ⟨r', hr⟩
      injection hr with h1 _
      subst h1
      simp [List.isPrefixOf]

theorem pyStartsWith_bracket {s : String} :
    pyStartsWith s "[" = true ↔ ∃ r, s.toList = '[' :: r := by
  unfold pyStartsWith
  have h : ("[" : String).toList = ['['] := rfl
  rw [h]
  exact singleton_isPrefixOf_iff

/-- Every read-failure placeholder of `read_file_content` begins with
`[`, so the summarizer's `startswith` guard always skips failed reads. -/
theorem read_error_startsWith_bracket (reason : String) (flag : Bool) :
    pyStartsWith (read_file_content (ReadOutcome.ioError reason) flag) "[" = true := by
  apply pyStartsWith_bracket.mpr
  show ∃ r, (("[Error reading file: " ++ reason) ++ "]").toList = '[' :: r
  have h1 : (("[Error reading file: " ++ reason) ++ "]").toList
      = ("[Error reading file: " ++ reason).data ++ "]".data := String.data_append _ _
  have h2 : ("[Error reading file: " ++ reason).data
      = "[Error reading file: ".data ++ reason.data := String.data_append _ _
  rw [h1, h2]
  exact ⟨("Error reading file: ".data ++ reason.data) ++ "]".data, by simp⟩

/-! ## Claim C2 -/

/-- C2 amended: in a rendered file section, the summarizer is called if
and only if a summarization model was given (nonempty) and the rendered
content does not begin with `[` — the source's proxy for "reading
succeeded"; in every other case the summary subsection holds the
`[No summary available]` placeholder and the only effect of the step is
the read.  Read failures always produce content beginning with `[`, so
they are indeed never summarized; but the proxy also fires on
successfully read content that happens to begin with `[`. -/
theorem c2_summary_condition (w : World) (a : BuildArgs) (cwd1 fp : String) :
    ((∃ e ∈ (renderFile w a cwd1 fp).2, e.isSummarizeE = true) ↔
      (truthyS a.summarize_model = true
        ∧ pyStartsWith (read_file_content (readOf w fp) a.include_line_numbers) "[" = false))
    ∧ (¬(truthyS a.summarize_model = true
          ∧ pyStartsWith (read_file_content (readOf w fp) a.include_line_numbers) "[" = false) →
        "[No summary available]" ∈ (renderFile w a cwd1 fp).1
          ∧ (renderFile w a cwd1 fp).2 = [Effect.readE fp])
    ∧ (∀ reason, readOf w fp = ReadOutcome.ioError reason →
        pyStartsWith (read_file_content (readOf w fp) a.include_line_numbers) "[" = true) := by
  by_cases hbt : truthyS a.summarize_model = true
      ∧ pyStartsWith (read_file_content (readOf w fp) a.include_line_numbers) "[" = false
  · have hb : (truthyS a.summarize_model
        && !(pyStartsWith (read_file_content (readOf w fp) a.include_line_numbers) "[")) = true := by
      rw [hbt.1, hbt.2]; rfl
    have hr2 : (renderFile w a cwd1 fp).2
        = [Effect.readE fp, Effect.summarizeE fp (a.summarize_model.getD "")] := by
      simp [renderFile, hb]
    refine ⟨⟨fun _ => hbt, fun _ => ?_⟩, fun hcon => absurd hbt hcon, ?_⟩
    · refine ⟨Effect.summarizeE fp (a.summarize_model.getD ""), ?_, rfl⟩
      rw [hr2]; simp
    · intro reason hread
      rw [hread]
      exact read_error_startsWith_bracket reason a.include_line_numbers
  · have hb : (truthyS a.summarize_model
        && !(pyStartsWith (read_file_content (readOf w fp) a.include_line_numbers) "[")) = false := by
      cases h1 : truthyS a.summarize_model
        <;> cases h2 : pyStartsWith (read_file_content (readOf w fp) a.include_line_numbers) "["
        <;> simp_all
    have hr1 : "[No summary available]" ∈ (renderFile w a cwd1 fp).1 := by
      simp [renderFile, hb]
    have hr2 : (renderFile w a cwd1 fp).2 = [Effect.readE fp] := by
      simp [renderFile, hb]
    refine ⟨⟨?_, fun hbt' => absurd hbt' hbt⟩, fun _ => ⟨hr1, hr2⟩, ?_⟩
    · rintro ⟨e, he, hse⟩
      rw [hr2] at he
      rcases List.mem_singleton.mp he with rfl
      simp [Effect.isSummarizeE] at hse
    · intro reason hread
      rw [hread]
      exact read_error_startsWith_bracket reason a.include_line_numbers

/-- A world for the C2 counterexample: a successfully read file whose
raw content begins with `[` (a JSON array). -/
def wC2 : World :=
  { files := [{ path := "/w/a.txt", size := 9, statOk := true,
                read := ReadOutcome.utf8 "[1, 2, 3]" }],
    dirs := ["/w"], cwd := "/w", writeFail := none, summarize := fun _ _ => "S" }

/-- The arguments for the C2 counterexample: summarization requested,
line numbering off. -/
def aC2 : BuildArgs := { files := ["/w/a.txt"], output_file := "/out.md",
                         summarize_model := some "m", include_line_numbers := false }

/-- C2 counterexample: reading `/w/a.txt` succeeds (UTF-8 content
`[1, 2, 3]`) and a summarization model is given, yet the build calls the
summarizer on nothing at all and the section carries the placeholder —
the claimed "iff reading succeeded" fails, because the code's guard is
the content prefix `[`, not the read outcome. -/
theorem c2_summary_condition_counterexample :
    readOf wC2 "/w/a.txt" = ReadOutcome.utf8 "[1, 2, 3]"
    ∧ truthyS aC2.summarize_model = true
    ∧ (build_context wC2 aC2).2.2.filter Effect.isSummarizeE = []
    ∧ "[No summary available]" ∈ (renderFile wC2 aC2 wC2.cwd "/w/a.txt").1 :=
  ⟨rfl, rfl, rfl, by decide⟩

/-- A world for the C2 witness: a plain text file that does get
summarized. -/
def wC2b : World :=
  { files := [{ path := "/w/h.txt", size := 5, statOk := true,
                read := ReadOutcome.utf8 "hello" }],
    dirs := ["/w"], cwd := "/w", writeFail := none, summarize := fun _ _ => "A summary" }

/-- The arguments for the C2 witness. -/
def aC2b : BuildArgs := { files := ["/w/h.txt"], output_file := "/out.md",
                          summarize_model := some "m" }

/-- Witness for C2 (amended): the summarizer fires on an ordinary file
when a model is given, and is skipped with the placeholder on a
`[`-prefixed content. -/
theorem c2_summary_condition_witness :
    (∃ e ∈ (renderFile wC2b aC2b "/w" "/w/h.txt").2, e.isSummarizeE = true)
    ∧ (renderFile wC2 aC2 "/w" "/w/a.txt").2 = [Effect.readE "/w/a.txt"] :=
  ⟨(c2_summary_condition wC2b aC2b "/w" "/w/h.txt").1.mpr ⟨rfl, rfl⟩,
   ((c2_summary_condition wC2 aC2 "/w" "/w/a.txt").2.1 (by decide)).2⟩

/-! ## Chdir-free trace lemmas for claim C9 -/

theorem eq_empty_of_toList_eq_nil {s : String} (h : s.toList = []) : s = "" := by
  cases s with
  | mk data =>
    have h' : data = [] := h
    subst h'
    rfl

theorem toList_isEmpty_false {s : String} (h : s ≠ "") : s.toList.isEmpty = false := by
  cases hsl : s.toList with
  | nil => exact absurd (eq_empty_of_toList_eq_nil hsl) h
  | cons c r => rfl

theorem dirFileStep_no_chdir (pats : List String) (n : FileNode) :
    ∀ e ∈ (dirFileStep pats n).2, e.isChdirE = false := by
  intro e he
  by_cases h1 : should_ignore_file (pyParts n.path) pats = true
  · simp [dirFileStep, h1] at he
  · by_cases h2 : n.statOk = false
    · simp [dirFileStep, h1, h2] at he
      rcases he with rfl | rfl <;> rfl
    · by_cases h3 : 1024 * 1024 < n.size
      · simp [dirFileStep, h1, h2, h3] at he
        rcases he with rfl | rfl <;> rfl
      · simp [dirFileStep, h1, h2, h3] at he
        subst he
        rfl

theorem collectFromDir_no_chdir (w : World) (pats : List String) (d : String) :
    ∀ e ∈ (collectFromDir w pats d).2, e.isChdirE = false := by
  intro e he
  by_cases h1 : pathExists w d = false
  · simp [collectFromDir, h1] at he
    subst he
    rfl
  · by_cases h2 : isDirB w d = false
    · simp [collectFromDir, h1, h2] at he
      subst he
      rfl
    · have hcd : (collectFromDir w pats d).2
          = Effect.globE d :: (((filesUnder w d).map (dirFileStep pats)).map Prod.snd).flatten := by
        simp [collectFromDir, h1, h2]
      rw [hcd] at he
      rcases List.mem_cons.mp he with rfl | he2
      · rfl
      · rcases List.mem_flatten.mp he2 with ⟨l, hl, hel⟩
        rcases List.mem_map.mp hl with ⟨pr, hpr, rfl⟩
        rcases List.mem_map.mp hpr with ⟨n, _, rfl⟩
        exact dirFileStep_no_chdir pats n e hel

theorem explicitFileStep_no_chdir (w : World) (pats : List String) (f : String) :
    ∀ e ∈ (explicitFileStep w pats f).2, e.isChdirE = false := by
  intro e he
  by_cases h1 : pathExists w f = false
  · simp [explicitFileStep, h1] at he
    subst he
    rfl
  · cases hn : findNode w f with
    | none =>
      simp [explicitFileStep, h1, hn] at he
      subst he
      rfl
    | some n =>
      by_cases h2 : should_ignore_file (pyParts f) pats = true
      · simp [explicitFileStep, h1, hn, h2] at he
      · by_cases h3 : n.statOk = false
        · simp [explicitFileStep, h1, hn, h2, h3] at he
          rcases he with rfl | rfl <;> rfl
        · by_cases h4 : 1024 * 1024 < n.size
          · simp [explicitFileStep, h1, hn, h2, h3, h4] at he
            rcases he with rfl | rfl <;> rfl
          · simp [explicitFileStep, h1, hn, h2, h3, h4] at he
            subst he
            rfl

theorem dirPhase_no_chdir (w : World) (pats : List String) (ds : List String) :
    ∀ e ∈ (dirPhase w pats ds).2, e.isChdirE = false := by
  intro e he
  rcases List.mem_flatten.mp he with ⟨l, hl, hel⟩
  rcases List.mem_map.mp hl with ⟨pr, hpr, rfl⟩
  rcases List.mem_map.mp hpr with ⟨d, _, rfl⟩
  exact collectFromDir_no_chdir w pats d e hel

theorem filePhase_no_chdir (w : World) (pats : List String) (fs : List String) :
    ∀ e ∈ (filePhase w pats fs).2, e.isChdirE = false := by
  intro e he
  rcases List.mem_flatten.mp he with ⟨l, hl, hel⟩
  rcases List.mem_map.mp hl with ⟨pr, hpr, rfl⟩
  rcases List.mem_map.mp hpr with ⟨f, _, rfl⟩
  exact explicitFileStep_no_chdir w pats f e hel

theorem collect_files_no_chdir (w : World) (ds fs : List String) (ip : Option (List String)) :
    ∀ e ∈ (collect_files w ds fs ip).2, e.isChdirE = false := by
  intro e he
  rcases List.mem_append.mp he with h | h
  · exact dirPhase_no_chdir w _ ds e h
  · exact filePhase_no_chdir w _ fs e h

theorem renderFile_no_chdir (w : World) (a : BuildArgs) (cwd1 fp : String) :
    ∀ e ∈ (renderFile w a cwd1 fp).2, e.isChdirE = false := by
  intro e he
  cases hb : (truthyS a.summarize_model
      && !(pyStartsWith (read_file_content (readOf w fp) a.include_line_numbers) "[")) with
  | true =>
    have h2 : (renderFile w a cwd1 fp).2
        = [Effect.readE fp, Effect.summarizeE fp (a.summarize_model.getD "")] := by
      simp [renderFile, hb]
    rw [h2] at he
    rcases List.mem_cons.mp he with rfl | he2
    · rfl
    · rcases List.mem_singleton.mp he2 with rfl
      rfl
  | false =>
    have h2 : (renderFile w a cwd1 fp).2 = [Effect.readE fp] := by
      simp [renderFile, hb]
    rw [h2] at he
    rcases List.mem_singleton.mp he with rfl
    rfl

theorem renderAll_no_chdir (w : World) (a : BuildArgs) (cwd1 : String) (fps : List String) :
    ∀ e ∈ (renderAll w a cwd1 fps).2, e.isChdirE = false := by
  intro e he
  rcases List.mem_flatten.mp he with ⟨l, hl, hel⟩
  rcases List.mem_map.mp hl with ⟨pr, hpr, rfl⟩
  rcases List.mem_map.mp hpr with ⟨fp, _, rfl⟩
  exact renderFile_no_chdir w a cwd1 fp e hel

/-! ## Claim C9 -/

/-- C9: on every exit path — validation error, successful build, or
output-write failure — the final working directory equals the original
one (the `finally` restore, given that `os.getcwd()` is never the empty
string); and when no alternate working directory is supplied the trace
contains no `chdir` at all. -/
theorem c9_cwd_restored (w : World) (a : BuildArgs) (h : w.cwd ≠ "") :
    (build_context w a).2.1 = w.cwd
    ∧ (truthyS a.current_working_directory = false →
        ∀ e ∈ (build_context w a).2.2, e.isChdirE = false) := by
  have htr : truthyS (some w.cwd) = true := by
    show (!w.cwd.toList.isEmpty) = true
    rw [toList_isEmpty_false h]
    rfl
  have h0 : truthyS (none : Option String) = false := rfl
  constructor
  · by_cases hv : a.directories = [] ∧ a.files = []
    · unfold build_context
      rw [if_pos hv]
    · unfold build_context
      rw [if_neg hv]
      dsimp only
      cases hc : truthyS a.current_working_directory with
      | true => simp [hc, htr]
      | false => simp [hc, h0]
  · intro hcf e he
    by_cases hv : a.directories = [] ∧ a.files = []
    · unfold build_context at he
      rw [if_pos hv] at he
      simp at he
    · unfold build_context at he
      rw [if_neg hv] at he
      dsimp only at he
      rw [hcf] at he
      cases hw : w.writeFail with
      | none =>
        rw [hw] at he
        simp only [if_neg Bool.false_ne_true, h0, List.nil_append, List.append_nil] at he
        rcases List.mem_append.mp he with he1 | he2
        · rcases List.mem_append.mp he1 with hc1 | hr1
          · exact collect_files_no_chdir w a.directories a.files a.ignore_patterns e hc1
          · exact renderAll_no_chdir w a w.cwd _ e hr1
        · rcases List.mem_singleton.mp he2 with rfl
          rfl
      | some r =>
        rw [hw] at he
        simp only [if_neg Bool.false_ne_true, h0, List.nil_append, List.append_nil] at he
        rcases List.mem_append.mp he with hc1 | hr1
        · exact collect_files_no_chdir w a.directories a.files a.ignore_patterns e hc1
        · exact renderAll_no_chdir w a w.cwd _ e hr1

/-- A world for the C9 witness. -/
def wC9 : World :=
  { files := [], dirs := ["/d"], cwd := "/home/u", writeFail := none,
    summarize := fun _ _ => "" }

/-- The arguments for the C9 witness: an alternate working directory is
supplied and the build succeeds. -/
def aC9 : BuildArgs := { directories := ["/d"], output_file := "/out.md",
                         current_working_directory := some "/d" }

/-- Witness for C9: the working directory ends up back at the original
after a build that changed it, and an identical call without the
alternate directory performs no `chdir` at all. -/
theorem c9_cwd_restored_witness :
    (build_context wC9 aC9).2.1 = wC9.cwd
    ∧ ∀ e ∈ (build_context wC9 { directories := ["/d"], output_file := "/out.md" }).2.2,
        e.isChdirE = false :=
  ⟨(c9_cwd_restored wC9 aC9 (by decide)).1,
   (c9_cwd_restored wC9 { directories := ["/d"], output_file := "/out.md" } (by decide)).2 rfl⟩
